import Mathlib

/-!
# Modern C++ programming notes: a verification development

The repository is a set of independent demonstration programs.  The parts of
them that compute something are embedded here:

* the 32-bit `int` and `unsigned` arithmetic of `basic_concepts_ii/main.cpp`
  (`Int`/`Nat` with explicit range checks and explicit `% 2^w`);
* the `Factorial<N>` template metaprogram and its `constexpr` rewrite
  `factorial` of `templates_metaprogramming_ii/main.cpp`;
* the fold expression guarding the homogeneous variadic overload `f`;
* the nested requirement of the concept `IsIter`;
* the counting loops of `basic_concepts_ii` and `basic_concepts_iii`;
* `std::conditional` (`templates_metaprogramming_i`) and the implicit sign
  conversion of `basic_concepts_i`;
* the integer statements of `main` of `basic_concepts_ii` in program order and
  the out-of-bounds loop of `basic_concepts_iv`.
-/

namespace ModernCpp

/-! ## Machine integers -/

/-- Largest value of a 32-bit `int` (`<climits>`). -/
def INT_MAX : Int := 2147483647

/-- Smallest value of a 32-bit `int` (`<climits>`). -/
def INT_MIN : Int := -2147483648

/-- Largest value of a 32-bit `unsigned` (`<climits>`). -/
def UINT_MAX : Nat := 4294967295

/-- Largest value of a `uint64_t`. -/
def UINT64_MAX : Nat := 18446744073709551615

/-- An `int` result is a value only when the mathematical result is
representable; otherwise the behaviour is undefined (and inside a constant
expression the program is ill-formed), which is `none` here. -/
def checkedInt (v : Int) : Option Int :=
  if INT_MIN ≤ v ∧ v ≤ INT_MAX then some v else none

/-- Signed `a + b` on `int`. -/
def intAdd (a b : Int) : Option Int := checkedInt (a + b)

/-- Signed `a - b` on `int`. -/
def intSub (a b : Int) : Option Int := checkedInt (a - b)

/-- Signed `a * b` on `int`. -/
def intMul (a b : Int) : Option Int := checkedInt (a * b)

/-- Signed `a / b` on `int`: no value for a zero divisor, truncation towards
zero otherwise (and no value when the quotient is not representable). -/
def intDiv (a b : Int) : Option Int :=
  if b = 0 then none else checkedInt (Int.tdiv a b)

/-! ## `Factorial<N>` and `factorial` (templates_metaprogramming_ii) -/

/-- The template metaprogram

```
template <int N> struct Factorial { static constexpr int value = N * Factorial<N - 1>::value; };
template <> struct Factorial<0>   { static constexpr int value = 1; };
```

`fuel` bounds the depth of nested instantiations; `none` is "no value"
(depth exhausted, or an `int` operation of the constant expression is not
representable). -/
def Factorial (fuel : Nat) (N : Int) : Option Int :=
  if N = 0 then some 1 else
  match fuel with
  | 0 => none
  | k + 1 =>
    match intSub N 1 with
    | none => none
    | some M =>
      match Factorial k M with
      | none => none
      | some v => intMul N v

/-- The template argument of the instantiation nested in `Factorial<N>`:
`N - 1` for the generic template; the specialization `Factorial<0>` nests
nothing. -/
def Factorial.next (N : Int) : Option Int :=
  if N = 0 then none else intSub N 1

/-- The `k`-th template argument of the chain `N, N - 1, N - 2, ...` started by
`Factorial<N>` (`none` once the chain has ended). -/
def Factorial.chain (N : Int) : Nat → Option Int
  | 0 => some N
  | k + 1 =>
    match Factorial.chain N k with
    | none => none
    | some M => Factorial.next M

/-- The loop of `factorial` with `T = int`:
`for (int i = 2; i <= value; i++) { tmp *= i; }`, then `return tmp`. -/
def factorialLoop (value : Int) (i tmp : Int) : Option Int :=
  if i ≤ value then
    match intMul tmp i with
    | none => none
    | some tmp1 =>
      match hi : intAdd i 1 with
      | none => none
      | some i1 => factorialLoop value i1 tmp1
  else some tmp
termination_by (value + 1 - i).toNat
decreasing_by
  simp only [intAdd, checkedInt] at hi
  split at hi
  · cases hi
    omega
  · cases hi

/-- The function `template <typename T> constexpr int factorial(T value)` with
`T = int`: `T tmp = 1;` then the loop from `i = 2`. -/
def factorial (value : Int) : Option Int := factorialLoop value 2 1

/-! ## Types of the examples -/

/-- The C++ types that the fold-expression, concept, division and
`std::conditional` examples mention. -/
inductive CppType where
  | void
  | short
  | int
  | unsigned
  | double
  /-- The type `std::vector<T>::iterator`. -/
  | vectorIterator (T : CppType)
  /-- The type `std::list<T>::iterator`. -/
  | listIterator (T : CppType)
  /-- The type `std::vector<T>::const_iterator`. -/
  | vectorConstIterator (T : CppType)
  deriving DecidableEq, Repr

/-- The trait `std::is_same_v<T, U>`. -/
def is_same_v (T U : CppType) : Bool := decide (T = U)

/-- The alias `std::enable_if_t<B>` (second argument defaulted): the type
`void` when `B` holds, a substitution failure (`none`) otherwise. -/
def enable_if_t (B : Bool) : Option CppType :=
  if B then some CppType.void else none

/-! ## Homogeneous variadic parameter type (templates_metaprogramming_ii) -/

/-- The fold expression `(std::is_same_v<TArgs, int> && ... && true)`: a
binary right fold over the pack, `E1 && (E2 && (... && (En && true)))`. -/
def f.condition (TArgs : List CppType) : Bool :=
  TArgs.foldr (fun T rest => is_same_v T CppType.int && rest) true

/-- The return type of the overload
`std::enable_if_t<(std::is_same_v<TArgs, int> && ... && true)> f(const TArgs... args)`
for a deduced pack; `none` removes the overload from the candidate set. -/
def f (TArgs : List CppType) : Option CppType :=
  enable_if_t (f.condition TArgs)

/-! ## The concept `IsIter` (templates_metaprogramming_ii) -/

/-- Type and value category of an expression. -/
structure ExprType where
  type : CppType
  lvalue : Bool
  const : Bool
  deriving DecidableEq, Repr

/-- What the compiler knows about the types in scope, as far as the
requirements of `IsIter` ask: member typedefs, the unary `*` operator and
assignment. They come from the declarations of the types (for the library
iterators, from headers outside the repository), so the concept is embedded
over an arbitrary such table. -/
structure TypeTable where
  /-- The member type `T::value_type`, when `T` has one. -/
  value_type : CppType → Option CppType
  /-- The type of `*e` for an operand of the given type, when well-formed. -/
  deref : ExprType → Option ExprType
  /-- The type of `l = r`, when well-formed. -/
  assign : ExprType → ExprType → Option ExprType

/-- The expressions that occur in the requirements of `IsIter`. -/
inductive IterExpr where
  /-- The parameter `v` of the inner requires-expression. -/
  | v
  /-- The parameter `it` of the outer requires-expression. -/
  | it
  | deref (e : IterExpr)
  | assign (l r : IterExpr)
  deriving DecidableEq, Repr

/-- Type of an expression over `Iter it` and `V v` (parameters are non-const
lvalues); `none` when the expression is ill-formed. -/
def IterExpr.typeOf (tbl : TypeTable) (Iter V : CppType) : IterExpr → Option ExprType
  | IterExpr.v => some ⟨V, true, false⟩
  | IterExpr.it => some ⟨Iter, true, false⟩
  | IterExpr.deref e =>
    match IterExpr.typeOf tbl Iter V e with
    | none => none
    | some t => tbl.deref t
  | IterExpr.assign l r =>
    match IterExpr.typeOf tbl Iter V l, IterExpr.typeOf tbl Iter V r with
    | some tl, some tr => tbl.assign tl tr
    | _, _ => none

/-- A simple requirement `e;` holds when `e` is well-formed. -/
def IterExpr.valid (tbl : TypeTable) (Iter V : CppType) (e : IterExpr) : Bool :=
  (IterExpr.typeOf tbl Iter V e).isSome

/-- The concept

```
template <typename Iter>
concept IsIter = requires(Iter it) {
    requires requires(typename Iter::value_type v) { v = *it; *it = v; };
};
```

A missing `Iter::value_type` is a substitution failure, which makes the
requirement false. -/
def IsIter (tbl : TypeTable) (Iter : CppType) : Bool :=
  match tbl.value_type Iter with
  | none => false
  | some V =>
    IterExpr.valid tbl Iter V (IterExpr.assign IterExpr.v (IterExpr.deref IterExpr.it)) &&
    IterExpr.valid tbl Iter V (IterExpr.assign (IterExpr.deref IterExpr.it) IterExpr.v)

/-- Arithmetic types among the modelled ones. -/
def CppType.isArithmetic : CppType → Bool
  | CppType.short => true
  | CppType.int => true
  | CppType.unsigned => true
  | CppType.double => true
  | _ => false

/-- The iterator class types among the modelled ones. -/
def CppType.isIterator : CppType → Bool
  | CppType.vectorIterator _ => true
  | CppType.listIterator _ => true
  | CppType.vectorConstIterator _ => true
  | _ => false

/-- Implicit conversion between iterator class types: a type converts to
itself, and `std::vector<T>::iterator` converts to
`std::vector<T>::const_iterator`. -/
def CppType.iteratorConvertsTo (src dst : CppType) : Bool :=
  decide (src = dst) ||
  match src, dst with
  | CppType.vectorIterator T, CppType.vectorConstIterator U => decide (T = U)
  | _, _ => false

/-- A concrete table of type facts, used to evaluate `IsIter`.  The library
headers are not part of the repository, so the theorems about `IsIter` take
the facts they need as hypotheses on an arbitrary table; this table has them.
It follows the declarations of the C++ standard library and the built-in
operators:

* the three iterator types have a member `value_type` equal to `T`; the other
  types have no member types;
* `*it` is a modifiable lvalue of type `T` for `std::vector<T>::iterator` and
  `std::list<T>::iterator`, and a `const` lvalue of type `T` for
  `std::vector<T>::const_iterator`; the other types have no unary `*`;
* `l = r` needs a non-`const` left operand; for an arithmetic `l` it needs a
  modifiable lvalue and an arithmetic `r`, for an iterator `l` (copy
  assignment of a class type) it needs an `r` that converts to the type of
  `l`; the result is an lvalue of the type of `l`. -/
def libraryTable : TypeTable where
  value_type := fun T =>
    match T with
    | CppType.vectorIterator U => some U
    | CppType.listIterator U => some U
    | CppType.vectorConstIterator U => some U
    | _ => none
  deref := fun t =>
    match t.type with
    | CppType.vectorIterator U => some ⟨U, true, false⟩
    | CppType.listIterator U => some ⟨U, true, false⟩
    | CppType.vectorConstIterator U => some ⟨U, true, true⟩
    | _ => none
  assign := fun l r =>
    if l.const then none
    else if l.type.isArithmetic then
      if l.lvalue && r.type.isArithmetic then some ⟨l.type, true, false⟩ else none
    else if l.type.isIterator then
      if r.type.iteratorConvertsTo l.type then some ⟨l.type, true, false⟩ else none
    else none

/-! ## Integer division (basic_concepts_ii) -/

/-- An operand of `/` in the division examples: an `int` literal with its
value, or a `double` literal (floating-point values are not modelled). -/
inductive Operand where
  | intLit (v : Int)
  | doubleLit
  deriving DecidableEq, Repr

/-- Type of a literal operand. -/
def Operand.type : Operand → CppType
  | Operand.intLit _ => CppType.int
  | Operand.doubleLit => CppType.double

/-- Outcome of `a / b`: an integer division with its guarded value, or a
floating-point division. -/
inductive DivisionResult where
  | integer (value : Option Int)
  | floating
  deriving DecidableEq, Repr

/-- The expression `a / b` on literals: both operands `int` gives the integer
division; a `double` operand converts the other one, and the division is a
floating-point one. -/
def divide (a b : Operand) : DivisionResult :=
  match a, b with
  | Operand.intLit x, Operand.intLit y => DivisionResult.integer (intDiv x y)
  | _, _ => DivisionResult.floating

/-! ## Unsigned arithmetic (basic_concepts_ii) -/

/-- Conversion of an `int` value to `unsigned`: reduction modulo `2^32`. -/
def toUnsigned (v : Int) : Nat := (v % 2 ^ 32).toNat

/-- Addition of two `unsigned` values. -/
def unsignedAdd (a b : Nat) : Nat := (a + b) % 2 ^ 32

/-- Subtraction of two `unsigned` values. -/
def unsignedSub (a b : Nat) : Nat := (a + (2 ^ 32 - b % 2 ^ 32)) % 2 ^ 32

/-- Conversion of an `unsigned` value to `uint64_t`: the value is kept. -/
def toUint64 (a : Nat) : Nat := a % 2 ^ 64

/-- Addition of two `uint64_t` values. -/
def uint64Add (a b : Nat) : Nat := (a + b) % 2 ^ 64

/-- The expression `UINT_MAX + 1`: the `int` operand is converted to
`unsigned`, the addition is an `unsigned` one. -/
def uintMaxPlusOne : Nat := unsignedAdd UINT_MAX (toUnsigned 1)

/-- The operand `2U - 4`: `4` is converted to `unsigned`, the subtraction is
an `unsigned` one. -/
def twoUMinusFour : Nat := unsignedSub 2 (toUnsigned 4)

/-- The statement `x += 2U - 4;` on `unsigned x`: the new value of `x`. -/
def addAssignUnsigned (x : Nat) : Nat := unsignedAdd x twoUMinusFour

/-- The statement `y += 2U - 4;` on `uint64_t y`: the `unsigned` operand is
widened to 64 bits, the addition is a 64-bit one. -/
def addAssignUint64 (y : Nat) : Nat := uint64Add y (toUint64 twoUMinusFour)

/-! ## Implicit sign conversion (basic_concepts_i) -/

/-- The expression `u + n` for `unsigned u` and `int n` (as in `u + neg_i`):
the `int` operand is converted to `unsigned`, the addition is an `unsigned`
one. -/
def unsignedPlusInt (u : Nat) (n : Int) : Nat := unsignedAdd u (toUnsigned n)

/-- The initializer of `becomes_unsigned_negative`: `u + neg_i` with
`unsigned u = 65` and `int neg_i = -75`. -/
def becomes_unsigned_negative : Nat := unsignedPlusInt 65 (-75)

/-! ## `std::conditional` (templates_metaprogramming_i) -/

/-- The trait `std::conditional<B, T, F>::type`, as the source documents it:
"return T if pred is true, else R". -/
def conditional (B : Bool) (T F : CppType) : CppType :=
  if B then T else F

/-- The alias `std::conditional_t<B, T, F>`, the C++14 style of
`std::conditional<B, T, F>::type`. -/
def conditional_t (B : Bool) (T F : CppType) : CppType :=
  conditional B T F

/-- The constant `constexpr bool pred = sizeof(T) > sizeof(R);`.  The sizes of
the types are implementation-defined, so `sizeof` is a parameter. -/
def pred (sizeof : CppType → Nat) (T R : CppType) : Bool :=
  decide (sizeof T > sizeof R)

/-- The alias `using S = std::conditional<pred, T, R>::type;`. -/
def S (sizeof : CppType → Nat) (T R : CppType) : CppType :=
  conditional (pred sizeof T R) T R

/-- The alias `using S = std::conditional_t<pred, T, R>;`. -/
def S_t (sizeof : CppType → Nat) (T R : CppType) : CppType :=
  conditional_t (pred sizeof T R) T R

/-- The printed expression `sizeof(S) == sizeof(int)` with `T = short`,
`R = int`. -/
def sizeofS_eq_sizeofInt (sizeof : CppType → Nat) : Bool :=
  decide (sizeof (S sizeof CppType.short CppType.int) = sizeof CppType.int)

/-- The sizes of a common data model (LP64): `short` 2, `int` and `unsigned`
4, `double` 8 bytes; iterators are taken as one pointer. -/
def sizeofLP64 : CppType → Nat
  | CppType.void => 1
  | CppType.short => 2
  | CppType.int => 4
  | CppType.unsigned => 4
  | CppType.double => 8
  | CppType.vectorIterator _ => 8
  | CppType.listIterator _ => 8
  | CppType.vectorConstIterator _ => 8

/-! ## Loops (basic_concepts_iii, basic_concepts_ii) -/

theorem checkedInt_of_range {v : Int} (h0 : INT_MIN ≤ v) (h1 : v ≤ INT_MAX) :
    checkedInt v = some v := by
  simp [checkedInt, h0, h1]

theorem factorial_le_INT_MAX {n : Nat} (h : n ≤ 12) : (n.factorial : Int) ≤ INT_MAX := by
  have h12 : n.factorial ≤ Nat.factorial 12 := Nat.factorial_le h
  have e : Nat.factorial 12 = 479001600 := by decide
  rw [e] at h12
  have : (n.factorial : Int) ≤ 479001600 := by exact_mod_cast h12
  simp only [INT_MAX]
  omega

theorem Factorial_nat (n : Nat) : ∀ fuel : Nat, n ≤ fuel → n ≤ 12 →
    Factorial fuel (n : Int) = some (n.factorial : Int) := by
  induction n with
  | zero =>
    intro fuel _ _
    unfold Factorial
    simp
  | succ n ih =>
    intro fuel hf h12
    obtain ⟨k, rfl⟩ : ∃ k, fuel = k + 1 := ⟨fuel - 1, by omega⟩
    have hne : ((n + 1 : Nat) : Int) ≠ 0 := by omega
    have hsub : intSub ((n + 1 : Nat) : Int) 1 = some (n : Int) := by
      have e : ((n + 1 : Nat) : Int) - 1 = (n : Int) := by omega
      unfold intSub
      rw [e]
      apply checkedInt_of_range <;> simp only [INT_MIN, INT_MAX] <;> omega
    have hmul : intMul ((n + 1 : Nat) : Int) (n.factorial : Int)
        = some (((n + 1).factorial : Nat) : Int) := by
      have e : ((n + 1 : Nat) : Int) * (n.factorial : Int) = (((n + 1).factorial : Nat) : Int) := by
        rw [Nat.factorial_succ]
        push_cast
        ring
      unfold intMul
      rw [e]
      apply checkedInt_of_range
      · simp only [INT_MIN]
        have : (0 : Int) ≤ (((n + 1).factorial : Nat) : Int) := Int.ofNat_nonneg _
        omega
      · exact factorial_le_INT_MAX h12
    unfold Factorial
    rw [if_neg hne]
    simp only [hsub, ih k (by omega) (by omega), hmul]

theorem factorialLoop_exit (value i tmp : Int) (h : value < i) :
    factorialLoop value i tmp = some tmp := by
  rw [factorialLoop]
  simp [not_le.mpr h]

theorem factorialLoop_step (value i tmp : Int) (h : i ≤ value)
    (hm0 : INT_MIN ≤ tmp * i) (hm1 : tmp * i ≤ INT_MAX)
    (hi0 : INT_MIN ≤ i + 1) (hi1 : i + 1 ≤ INT_MAX) :
    factorialLoop value i tmp = factorialLoop value (i + 1) (tmp * i) := by
  rw [factorialLoop]
  have hmul : intMul tmp i = some (tmp * i) := checkedInt_of_range hm0 hm1
  have hadd : intAdd i 1 = some (i + 1) := checkedInt_of_range hi0 hi1
  simp only [if_pos h, hmul]
  split
  · rename_i heq
    rw [hadd] at heq
    cases heq
  · rename_i i1 heq
    rw [hadd] at heq
    cases heq
    rfl

theorem factorialLoop_nat (n : Nat) (hn : n ≤ 12) : ∀ (d j : Nat), j + d = n → 1 ≤ j →
    factorialLoop (n : Int) ((j : Int) + 1) (j.factorial : Int) = some (n.factorial : Int) := by
  intro d
  induction d with
  | zero =>
    intro j hj _
    have e : j = n := by omega
    subst e
    exact factorialLoop_exit _ _ _ (by omega)
  | succ d ih =>
    intro j hj h1
    have hmulEq : (j.factorial : Int) * ((j : Int) + 1) = (((j + 1).factorial : Nat) : Int) := by
      rw [Nat.factorial_succ]
      push_cast
      ring
    have hb : (((j + 1).factorial : Nat) : Int) ≤ INT_MAX := factorial_le_INT_MAX (by omega)
    have hpos : (0 : Int) ≤ (((j + 1).factorial : Nat) : Int) := Int.ofNat_nonneg _
    rw [factorialLoop_step _ _ _ (by omega)
      (by rw [hmulEq]; simp only [INT_MIN]; omega) (by rw [hmulEq]; exact hb)
      (by simp only [INT_MIN]; omega) (by simp only [INT_MAX]; omega)]
    rw [hmulEq]
    have := ih (j + 1) (by omega) (by omega)
    simpa using this

theorem factorial_nat (n : Nat) (hn : n ≤ 12) :
    factorial (n : Int) = some (n.factorial : Int) := by
  unfold factorial
  rcases Nat.lt_or_ge n 2 with h | h
  · rw [factorialLoop_exit _ _ _ (by omega)]
    have : n = 0 ∨ n = 1 := by omega
    rcases this with rfl | rfl <;> rfl
  · have := factorialLoop_nat n hn (n - 1) 1 (by omega) (le_refl _)
    simpa using this

/-- The bound `12` is the last one: `13!` is not representable in `int`, so
`Factorial<13>::value` and `factorial(13)` have no value. -/
theorem Factorial_13_no_value : Factorial 13 13 = none ∧ factorial 13 = none := by
  constructor
  · decide
  · unfold factorial
    rw [factorialLoop_step 13 2 1 (by decide) (by decide) (by decide) (by decide) (by decide)]
    rw [factorialLoop_step 13 _ _ (by decide) (by decide) (by decide) (by decide) (by decide)]
    rw [factorialLoop_step 13 _ _ (by decide) (by decide) (by decide) (by decide) (by decide)]
    rw [factorialLoop_step 13 _ _ (by decide) (by decide) (by decide) (by decide) (by decide)]
    rw [factorialLoop_step 13 _ _ (by decide) (by decide) (by decide) (by decide) (by decide)]
    rw [factorialLoop_step 13 _ _ (by decide) (by decide) (by decide) (by decide) (by decide)]
    rw [factorialLoop_step 13 _ _ (by decide) (by decide) (by decide) (by decide) (by decide)]
    rw [factorialLoop_step 13 _ _ (by decide) (by decide) (by decide) (by decide) (by decide)]
    rw [factorialLoop_step 13 _ _ (by decide) (by decide) (by decide) (by decide) (by decide)]
    rw [factorialLoop_step 13 _ _ (by decide) (by decide) (by decide) (by decide) (by decide)]
    rw [factorialLoop_step 13 _ _ (by decide) (by decide) (by decide) (by decide) (by decide)]
    rw [factorialLoop]
    have h : intMul (1 * 2 * (2 + 1) * (2 + 1 + 1) * (2 + 1 + 1 + 1) * (2 + 1 + 1 + 1 + 1) *
        (2 + 1 + 1 + 1 + 1 + 1) * (2 + 1 + 1 + 1 + 1 + 1 + 1) *
        (2 + 1 + 1 + 1 + 1 + 1 + 1 + 1) * (2 + 1 + 1 + 1 + 1 + 1 + 1 + 1 + 1) *
        (2 + 1 + 1 + 1 + 1 + 1 + 1 + 1 + 1 + 1) *
        (2 + 1 + 1 + 1 + 1 + 1 + 1 + 1 + 1 + 1 + 1))
        (2 + 1 + 1 + 1 + 1 + 1 + 1 + 1 + 1 + 1 + 1 + 1) = none := by decide
    simp only [h]
    decide

/-- C1. For every integer `N` with `0 ≤ N ≤ 12`, `Factorial<N>::value` is `N!`
(whenever the instantiation depth allows the `N` nested instantiations), and
`Factorial<5>::value` is `120`. -/
theorem Factorial_value_eq_factorial (N : Int) (h0 : 0 ≤ N) (h12 : N ≤ 12)
    (fuel : Nat) (hfuel : N.toNat ≤ fuel) :
    Factorial fuel N = some ((N.toNat.factorial : Nat) : Int) ∧
      Factorial 5 5 = some 120 := by
  have e : N = ((N.toNat : Nat) : Int) := (Int.toNat_of_nonneg h0).symm
  constructor
  · have := Factorial_nat N.toNat fuel hfuel (by omega)
    rw [← e] at this
    exact this
  · exact Factorial_nat 5 5 (le_refl _) (by decide)

theorem Factorial_value_eq_factorial_witness :
    (0 : Int) ≤ 5 ∧ (5 : Int) ≤ 12 ∧ (5 : Int).toNat ≤ 7 ∧
      Factorial 7 5 = some (((5 : Int).toNat.factorial : Nat) : Int) :=
  ⟨by decide, by decide, by decide,
    (Factorial_value_eq_factorial 5 (by decide) (by decide) 7 (by decide)).1⟩

/-- C2. The iterative `factorial(value)` with `T = int` returns, for every `N`
with `0 ≤ N ≤ 12`, the value of `Factorial<N>::value` (and both have one). -/
theorem factorial_eq_Factorial (N : Int) (h0 : 0 ≤ N) (h12 : N ≤ 12)
    (fuel : Nat) (hfuel : N.toNat ≤ fuel) :
    factorial N = Factorial fuel N ∧ (factorial N).isSome = true := by
  have e : N = ((N.toNat : Nat) : Int) := (Int.toNat_of_nonneg h0).symm
  have h1 := Factorial_nat N.toNat fuel hfuel (by omega)
  have h2 := factorial_nat N.toNat (by omega)
  rw [← e] at h1 h2
  rw [h1, h2]
  exact ⟨rfl, rfl⟩

theorem factorial_eq_Factorial_witness :
    (0 : Int) ≤ 4 ∧ (4 : Int) ≤ 12 ∧ (4 : Int).toNat ≤ 4 ∧
      factorial 4 = Factorial 4 4 ∧ (factorial 4).isSome = true :=
  ⟨by decide, by decide, by decide,
    factorial_eq_Factorial 4 (by decide) (by decide) 4 (by decide)⟩

theorem IsIter_iff (t : TypeTable) (Iter : CppType) :
    IsIter t Iter = true ↔
      ∃ V R, t.value_type Iter = some V ∧ t.deref ⟨Iter, true, false⟩ = some R ∧
        (t.assign ⟨V, true, false⟩ R).isSome = true ∧
        (t.assign R ⟨V, true, false⟩).isSome = true := by
  unfold IsIter
  cases hV : t.value_type Iter with
  | none => simp
  | some V =>
    cases hR : t.deref ⟨Iter, true, false⟩ with
    | none => simp [IterExpr.valid, IterExpr.typeOf, hR]
    | some R => simp [IterExpr.valid, IterExpr.typeOf, hR]

/-- C3. A type `Iter` satisfies `IsIter` exactly when it has a member
`value_type` and, for `v` of that type and `Iter it`, both `v = *it` and
`*it = v` are well-formed (`*it` has a type, and each assignment has one); a
type with a `value_type` for which `*it`, `v = *it` or `*it = v` is ill-formed
does not satisfy it.  With the library facts about them,
`std::vector<int>::iterator` and `std::list<double>::iterator` satisfy it, and
`int`, which has no member `value_type`, does not. -/
theorem IsIter_iff_and_static_asserts (tbl : TypeTable)
    (hvec : tbl.value_type (CppType.vectorIterator CppType.int) = some CppType.int)
    (hvecDeref : tbl.deref ⟨CppType.vectorIterator CppType.int, true, false⟩
      = some ⟨CppType.int, true, false⟩)
    (hlist : tbl.value_type (CppType.listIterator CppType.double) = some CppType.double)
    (hlistDeref : tbl.deref ⟨CppType.listIterator CppType.double, true, false⟩
      = some ⟨CppType.double, true, false⟩)
    (hintAssign : (tbl.assign ⟨CppType.int, true, false⟩ ⟨CppType.int, true, false⟩).isSome
      = true)
    (hdoubleAssign :
      (tbl.assign ⟨CppType.double, true, false⟩ ⟨CppType.double, true, false⟩).isSome = true)
    (hint : tbl.value_type CppType.int = none) :
    (∀ (t : TypeTable) (Iter : CppType), IsIter t Iter = true ↔
      ∃ V R, t.value_type Iter = some V ∧ t.deref ⟨Iter, true, false⟩ = some R ∧
        (t.assign ⟨V, true, false⟩ R).isSome = true ∧
        (t.assign R ⟨V, true, false⟩).isSome = true) ∧
    (∀ (t : TypeTable) (Iter V : CppType), t.value_type Iter = some V →
      t.deref ⟨Iter, true, false⟩ = none → IsIter t Iter = false) ∧
    (∀ (t : TypeTable) (Iter V : CppType) (R : ExprType), t.value_type Iter = some V →
      t.deref ⟨Iter, true, false⟩ = some R →
      (t.assign ⟨V, true, false⟩ R = none ∨ t.assign R ⟨V, true, false⟩ = none) →
      IsIter t Iter = false) ∧
    IsIter tbl (CppType.vectorIterator CppType.int) = true ∧
    IsIter tbl (CppType.listIterator CppType.double) = true ∧
    IsIter tbl CppType.int = false := by
  refine ⟨IsIter_iff, ?_, ?_, ?_, ?_, ?_⟩
  · intro t Iter V hV hR
    rw [Bool.eq_false_iff]
    intro h
    obtain ⟨V1, R, _, hR1, _, _⟩ := (IsIter_iff t Iter).mp h
    rw [hR] at hR1
    cases hR1
  · intro t Iter V R hV hR hbad
    rw [Bool.eq_false_iff]
    intro h
    obtain ⟨V1, R1, hV1, hR1, h1, h2⟩ := (IsIter_iff t Iter).mp h
    rw [hV] at hV1
    rw [hR] at hR1
    cases hV1
    cases hR1
    rcases hbad with hb | hb
    · rw [hb] at h1
      cases h1
    · rw [hb] at h2
      cases h2
  · exact (IsIter_iff tbl _).mpr ⟨_, _, hvec, hvecDeref, hintAssign, hintAssign⟩
  · exact (IsIter_iff tbl _).mpr ⟨_, _, hlist, hlistDeref, hdoubleAssign, hdoubleAssign⟩
  · rw [Bool.eq_false_iff]
    intro h
    obtain ⟨V, _, hV, _⟩ := (IsIter_iff tbl _).mp h
    rw [hint] at hV
    cases hV

theorem IsIter_iff_and_static_asserts_witness :
    (libraryTable.value_type (CppType.vectorIterator CppType.int) = some CppType.int ∧
      libraryTable.deref ⟨CppType.vectorIterator CppType.int, true, false⟩
        = some ⟨CppType.int, true, false⟩ ∧
      libraryTable.value_type (CppType.listIterator CppType.double) = some CppType.double ∧
      libraryTable.deref ⟨CppType.listIterator CppType.double, true, false⟩
        = some ⟨CppType.double, true, false⟩ ∧
      (libraryTable.assign ⟨CppType.int, true, false⟩ ⟨CppType.int, true, false⟩).isSome
        = true ∧
      (libraryTable.assign ⟨CppType.double, true, false⟩
        ⟨CppType.double, true, false⟩).isSome = true ∧
      libraryTable.value_type CppType.int = none) ∧
    IsIter libraryTable (CppType.vectorIterator CppType.int) = true ∧
    IsIter libraryTable (CppType.listIterator CppType.double) = true ∧
    IsIter libraryTable CppType.int = false ∧
    IsIter libraryTable (CppType.vectorConstIterator CppType.int) = false :=
  ⟨⟨rfl, rfl, rfl, rfl, rfl, rfl, rfl⟩,
    (IsIter_iff_and_static_asserts libraryTable rfl rfl rfl rfl rfl rfl rfl).2.2.2.1,
    (IsIter_iff_and_static_asserts libraryTable rfl rfl rfl rfl rfl rfl rfl).2.2.2.2.1,
    (IsIter_iff_and_static_asserts libraryTable rfl rfl rfl rfl rfl rfl rfl).2.2.2.2.2,
    (IsIter_iff_and_static_asserts libraryTable rfl rfl rfl rfl rfl rfl rfl).2.2.1
      libraryTable (CppType.vectorConstIterator CppType.int) CppType.int
      ⟨CppType.int, true, true⟩ rfl rfl (Or.inr rfl)⟩

theorem f_condition_iff (TArgs : List CppType) :
    f.condition TArgs = true ↔ ∀ T ∈ TArgs, T = CppType.int := by
  induction TArgs with
  | nil => simp [f.condition]
  | cons T rest ih =>
    have e : f.condition (T :: rest) = (is_same_v T CppType.int && f.condition rest) := rfl
    rw [e, Bool.and_eq_true, ih]
    simp [is_same_v]

/-- C4. The overload `f` is enabled exactly when every type of the pack is
`int`: the fold condition holds for `(int, int, int)` and for the empty pack
and fails for `(unsigned, int, int)`. -/
theorem f_enabled_iff_all_int :
    (∀ TArgs : List CppType, f.condition TArgs = true ↔ ∀ T ∈ TArgs, T = CppType.int) ∧
    (∀ TArgs : List CppType, (f TArgs).isSome = true ↔ ∀ T ∈ TArgs, T = CppType.int) ∧
    f.condition [CppType.int, CppType.int, CppType.int] = true ∧
    f.condition [CppType.unsigned, CppType.int, CppType.int] = false ∧
    f.condition [] = true := by
  refine ⟨f_condition_iff, ?_, by decide, by decide, by decide⟩
  intro TArgs
  rw [← f_condition_iff]
  unfold f enable_if_t
  cases f.condition TArgs <;> simp

/-- C5. `INT_MAX + 1` and `INT_MIN * -1` both have the mathematical result
`2^31`, which is outside `[-2^31, 2^31 - 1]`; the checked `int` operations
yield no value for either. -/
theorem signed_overflow_no_value :
    INT_MIN = -2 ^ 31 ∧ INT_MAX = 2 ^ 31 - 1 ∧
    INT_MAX + 1 = 2 ^ 31 ∧ INT_MIN * -1 = 2 ^ 31 ∧
    ¬ (INT_MIN ≤ (2 : Int) ^ 31 ∧ (2 : Int) ^ 31 ≤ INT_MAX) ∧
    intAdd INT_MAX 1 = none ∧ intMul INT_MIN (-1) = none := by
  refine ⟨by decide, by decide, by decide, by decide, by decide, by decide, by decide⟩

/-- C6. In `5 / 0` and `0 / 0` both operands are `int` and the divisor is
zero, so the guarded integer division yields no value (as it does for every
dividend); `5.0 / 0` and `5 / 0.0` are floating-point divisions. -/
theorem integer_division_by_zero_no_value :
    (Operand.intLit 5).type = CppType.int ∧ (Operand.intLit 0).type = CppType.int ∧
    divide (Operand.intLit 5) (Operand.intLit 0) = DivisionResult.integer none ∧
    divide (Operand.intLit 0) (Operand.intLit 0) = DivisionResult.integer none ∧
    (∀ a : Int, intDiv a 0 = none) ∧
    divide Operand.doubleLit (Operand.intLit 0) = DivisionResult.floating ∧
    divide (Operand.intLit 5) Operand.doubleLit = DivisionResult.floating := by
  refine ⟨rfl, rfl, by decide, by decide, ?_, rfl, rfl⟩
  intro a
  simp [intDiv]

theorem Factorial_negative (fuel : Nat) : ∀ N : Int, N < 0 → Factorial fuel N = none := by
  induction fuel with
  | zero =>
    intro N hN
    unfold Factorial
    simp [ne_of_lt hN]
  | succ k ih =>
    intro N hN
    unfold Factorial
    rw [if_neg (ne_of_lt hN)]
    cases hs : intSub N 1 with
    | none => rfl
    | some M =>
      have hM : M < 0 := by
        simp only [intSub, checkedInt] at hs
        split at hs
        · cases hs
          omega
        · cases hs
      simp only [ih M hM]

theorem chain_negative (N : Int) (hN : N < 0) :
    ∀ k : Nat, Factorial.chain N k = none ∨ ∃ M : Int, M < 0 ∧ Factorial.chain N k = some M := by
  intro k
  induction k with
  | zero => exact Or.inr ⟨N, hN, rfl⟩
  | succ k ih =>
    rcases ih with h | ⟨M, hM, h⟩
    · left
      simp [Factorial.chain, h]
    · simp only [Factorial.chain, h, Factorial.next, if_neg (ne_of_lt hM), intSub, checkedInt]
      split
      · exact Or.inr ⟨M - 1, by omega, rfl⟩
      · exact Or.inl rfl

theorem chain_nonneg (N : Int) (h0 : 0 ≤ N) (hmax : N ≤ INT_MAX) :
    ∀ k : Nat, (k : Int) ≤ N → Factorial.chain N k = some (N - k) := by
  intro k
  induction k with
  | zero =>
    intro _
    simp [Factorial.chain]
  | succ k ih =>
    intro hk
    have hk1 : (k : Int) < N := by push_cast at hk; omega
    have hne : N - (k : Int) ≠ 0 := by omega
    simp only [Factorial.chain, ih (le_of_lt hk1), Factorial.next, if_neg hne, intSub]
    have e : N - (k : Int) - 1 = N - ((k + 1 : Nat) : Int) := by push_cast; ring
    rw [e]
    apply checkedInt_of_range
    · simp only [INT_MIN]
      omega
    · simp only [INT_MAX] at hmax ⊢
      omega

/-- C8. For a negative `N` the chain of template arguments
`N, N - 1, N - 2, ...` of `Factorial<N>` never reaches the base case `0`, and
no instantiation depth gives `Factorial<N>::value`; for an `int` `N ≥ 0` the
chain reaches `Factorial<0>` after exactly `N` steps (and not before). -/
theorem Factorial_chain_reaches_base (N : Int) (hmax : N ≤ INT_MAX) :
    (N < 0 → (∀ k : Nat, Factorial.chain N k ≠ some 0) ∧
      (∀ fuel : Nat, Factorial fuel N = none)) ∧
    (0 ≤ N → Factorial.chain N N.toNat = some 0 ∧
      (∀ k : Nat, k < N.toNat → ∃ M : Int, M ≠ 0 ∧ Factorial.chain N k = some M) ∧
      Factorial.chain N (N.toNat + 1) = none) := by
  constructor
  · intro hN
    refine ⟨?_, fun fuel => Factorial_negative fuel N hN⟩
    intro k hk
    rcases chain_negative N hN k with h | ⟨M, hM, h⟩
    · rw [h] at hk
      cases hk
    · rw [h] at hk
      cases hk
      omega
  · intro h0
    have hreach : Factorial.chain N N.toNat = some 0 := by
      rw [chain_nonneg N h0 hmax N.toNat (by omega)]
      congr 1
      omega
    refine ⟨hreach, ?_, ?_⟩
    · intro k hk
      exact ⟨N - k, by omega, chain_nonneg N h0 hmax k (by omega)⟩
    · simp [Factorial.chain, hreach, Factorial.next]

theorem Factorial_chain_reaches_base_witness :
    ((-1 : Int) ≤ INT_MAX ∧ (-1 : Int) < 0 ∧ (∀ k : Nat, Factorial.chain (-1) k ≠ some 0) ∧
      (∀ fuel : Nat, Factorial fuel (-1) = none)) ∧
    ((3 : Int) ≤ INT_MAX ∧ (0 : Int) ≤ 3 ∧ Factorial.chain 3 3 = some 0) :=
  ⟨⟨by decide, by decide,
      (Factorial_chain_reaches_base (-1) (by decide)).1 (by decide)⟩,
    ⟨by decide, by decide,
      ((Factorial_chain_reaches_base 3 (by decide)).2 (by decide)).1⟩⟩

/-- C9. Unsigned max wraps around to 0: `UINT_MAX + 1` in 32-bit unsigned
arithmetic is `(2^32 - 1 + 1) mod 2^32 = 0`. -/
theorem uint_max_plus_one_wraps :
    UINT_MAX = 2 ^ 32 - 1 ∧ toUnsigned 1 = 1 ∧
    uintMaxPlusOne = (2 ^ 32 - 1 + 1) % 2 ^ 32 ∧ uintMaxPlusOne = 0 := by
  refine ⟨by decide, by decide, by decide, by decide⟩

/-- C10. With `unsigned x = 32`, `x += 2U - 4` leaves `x = 30`; with
`uint64_t y = 32` the same statement leaves `y = 4294967326 = 32 + (2^32 - 2)`,
not `30`, because `2U - 4` is `2^32 - 2` before it is widened to 64 bits. -/
theorem mixed_signed_unsigned_width :
    addAssignUnsigned 32 = 30 ∧
    addAssignUint64 32 = 4294967326 ∧ addAssignUint64 32 ≠ 30 ∧
    addAssignUint64 32 = 32 + (2 ^ 32 - 2) ∧
    twoUMinusFour = 2 ^ 32 - 2 ∧ toUint64 twoUMinusFour = 2 ^ 32 - 2 := by
  refine ⟨by decide, by decide, by decide, by decide, by decide, by decide⟩

/-- C11. With `pred = sizeof(T) > sizeof(R)`, `S = std::conditional<pred, T, R>::type`
is the larger of `T` and `R`: `sizeof(S) = max(sizeof(T), sizeof(R))` for every
pair of types; for `T = short`, `R = int` (where `sizeof(short) ≤ sizeof(int)`)
it is `int`, so `sizeof(S) == sizeof(int)` is true; the `std::conditional_t`
form selects the same type. -/
theorem conditional_selects_larger (sizeof : CppType → Nat)
    (hshort : sizeof CppType.short ≤ sizeof CppType.int) :
    (∀ T R : CppType, sizeof (S sizeof T R) = max (sizeof T) (sizeof R)) ∧
    (∀ T R : CppType, S sizeof T R = T ∨ S sizeof T R = R) ∧
    S sizeof CppType.short CppType.int = CppType.int ∧
    sizeofS_eq_sizeofInt sizeof = true ∧
    (∀ T R : CppType, S_t sizeof T R = S sizeof T R) := by
  have hS : S sizeof CppType.short CppType.int = CppType.int := by
    unfold S conditional pred
    rw [decide_eq_false (by omega)]
    rfl
  refine ⟨?_, ?_, hS, ?_, fun _ _ => rfl⟩
  · intro T R
    unfold S conditional pred
    by_cases h : sizeof T > sizeof R
    · rw [decide_eq_true h, if_pos rfl]
      omega
    · rw [decide_eq_false h]
      simp only [Bool.false_eq_true, if_false]
      omega
  · intro T R
    unfold S conditional
    cases pred sizeof T R
    · exact Or.inr rfl
    · exact Or.inl rfl
  · unfold sizeofS_eq_sizeofInt
    rw [hS]
    exact decide_eq_true rfl

theorem conditional_selects_larger_witness :
    sizeofLP64 CppType.short ≤ sizeofLP64 CppType.int ∧
    S sizeofLP64 CppType.short CppType.int = CppType.int ∧
    sizeofS_eq_sizeofInt sizeofLP64 = true :=
  ⟨by decide, (conditional_selects_larger sizeofLP64 (by decide)).2.2.1,
    (conditional_selects_larger sizeofLP64 (by decide)).2.2.2.1⟩

/-- C12. A negative number made unsigned wraps around: with `unsigned u = 65`
and `int neg_i = -75`, `u + neg_i` is `4294967286 = 2^32 - 10`; for every
`unsigned u` and `int n` the result is `(u + n) mod 2^32`. -/
theorem unsigned_plus_negative_wraps :
    toUnsigned (-75) = 2 ^ 32 - 75 ∧
    becomes_unsigned_negative = 4294967286 ∧
    becomes_unsigned_negative = 2 ^ 32 - 10 ∧
    (∀ (u : Nat) (n : Int),
      ((unsignedPlusInt u n : Nat) : Int) = ((u : Int) + n) % 2 ^ 32 ∧
      unsignedPlusInt u n < 2 ^ 32) := by
  refine ⟨by decide, by decide, by decide, ?_⟩
  intro u n
  unfold unsignedPlusInt unsignedAdd toUnsigned
  have hpow : (2 : Int) ^ 32 = 4294967296 := by norm_num
  have hpowN : (2 : Nat) ^ 32 = 4294967296 := by norm_num
  rw [hpow, hpowN]
  constructor
  · omega
  · omega

end ModernCpp
